import Mathlib

/-!
Verification development for the derivative-based regular-expression engine.

The repository contains two engine variants with identical node logic:
* src/regex.rs        (called Regex1 below): root node stored by value;
* src/regex/mod.rs    (called Regex2 below): root node stored by reference.

Both operate on a six-way node type (Zero, One, Char, Alt, Seq, Star) whose
composite variants hold references into an arena (src/vec_alloc.rs).  This file
models the code at two levels:

1. a pure tree level, where arena references are replaced by owned subtrees:
   this captures the recursive node logic of nullable, der_rec, simp_rec,
   ders and is_match exactly as written in the source;
2. an arena level (further below), where allocation, arena capacity, resizing
   and reference validity are modelled explicitly in order to settle the
   claims about the retry protocol and reference provenance.
-/

set_option autoImplicit false

/-- The six-way node type, `Re` in both src/regex.rs (lines 37-44) and
src/regex/mod.rs (lines 10-17), with arena references replaced by owned
subtrees. -/
inductive Re where
  | zero : Re
  | one : Re
  | char (c : Char) : Re
  | alt (r1 r2 : Re) : Re
  | seq (r1 r2 : Re) : Re
  | star (r : Re) : Re
deriving DecidableEq, Repr

namespace Re

/-- `Re::nullable`, src/regex/mod.rs lines 21-30 (identical in src/regex.rs
lines 66-75). -/
def nullable : Re → Bool
  | .zero => false
  | .one => true
  | .char _ => false
  | .alt r1 r2 => r1.nullable || r2.nullable
  | .seq r1 r2 => r1.nullable && r2.nullable
  | .star _ => true

/-- The node computed by one step of `Regex::der_rec`, src/regex/mod.rs lines
268-300 (same node logic in src/regex.rs lines 218-251; the two differ only in
how the result is allocated, which the arena-level model below covers).
The input character is `c`; a `Char(d)` node derives to `One` exactly when
`c == d` (the code tests `c == *d`). -/
def der (r : Re) (c : Char) : Re :=
  match r with
  | .zero => .zero
  | .one => .zero
  | .char d => if c = d then .one else .zero
  | .alt r1 r2 => .alt (der r1 c) (der r2 c)
  | .seq r1 r2 =>
    if r1.nullable then .alt (.seq (der r1 c) r2) (der r2 c)
    else .seq (der r1 c) r2
  | .star r1 => .seq (der r1 c) (.star r1)

/-- The `Re::Alt` arm of `simp_rec` after both children have been simplified:
src/regex/mod.rs lines 352-370 (same arms in src/regex.rs lines 306-324).
Match arms in source order: `(Zero, _)`, `(_, Zero)`, then the structural
equality test, then reuse-or-allocate (which at tree level is `alt r1 r2`
either way). -/
def simpAlt : Re → Re → Re
  | .zero, r2 => r2
  | r1, .zero => r1
  | r1, r2 => if r1 = r2 then r1 else .alt r1 r2

/-- The `Re::Seq` arm of `simp_rec` after both children have been simplified:
src/regex/mod.rs lines 371-387 (same arms in src/regex.rs lines 325-341).
Match arms in source order: `(Zero, _) => r1`, `(_, Zero) => r2`,
`(One, _) => r2`, `(_, One) => r1`, then reuse-or-allocate.  In the first two
arms the returned side is the `Zero` itself. -/
def simpSeq : Re → Re → Re
  | .zero, _ => .zero
  | _, .zero => .zero
  | .one, r2 => r2
  | r1, .one => r1
  | r1, r2 => .seq r1 r2

/-- `Regex::simp_rec`, src/regex/mod.rs lines 322-390 (and src/regex.rs lines
278-344): recurse into children first, then combine with the arm logic.
Leaves (`Zero`, `One`, `Char`) are returned unchanged. -/
def simp : Re → Re
  | .alt r1 r2 => simpAlt (simp r1) (simp r2)
  | .seq r1 r2 => simpSeq (simp r1) (simp r2)
  | r => r

/-- Test whether the root node is the `Zero` constructor, as the
`if let Re::Zero = ...` short-circuit in both `ders` functions does. -/
def isZero : Re → Bool
  | .zero => true
  | _ => false

theorem isZero_iff {r : Re} : r.isZero = true ↔ r = .zero := by
  cases r <;> simp [isZero]

end Re

namespace Regex1

/-- `Regex::ders`, src/regex.rs lines 358-378: short-circuit to a fresh
`Regex::new()` (whose tree is `Re::Zero`) when the root is `Zero`; otherwise
fold derivative-then-simplify over the characters, four at a time when at
least four remain (`to_owned` is a deep copy, the identity at tree level). -/
def ders (r : Re) (cs : List Char) : Re :=
  if r.isZero then .zero
  else
    match cs with
    | [] => r
    | c1 :: c2 :: c3 :: c4 :: cs =>
      ders (Re.simp (Re.der (Re.simp (Re.der (Re.simp (Re.der (Re.simp (Re.der r c1)) c2)) c3)) c4)) cs
    | c :: cs => ders (Re.simp (Re.der r c)) cs
termination_by cs.length
decreasing_by
  all_goals simp_arith

/-- `Regex::is_match`, src/regex.rs lines 380-384. -/
def isMatch (r : Re) (cs : List Char) : Bool :=
  (ders r cs).nullable

end Regex1

namespace Regex2

/-- `Regex::ders`, src/regex/mod.rs lines 409-429: identical to the
src/regex.rs version except that the `Zero` short-circuit returns the regex
itself (whose tree is the `Zero` root) rather than a fresh `Regex::new()`
(`clone` is a deep copy, the identity at tree level). -/
def ders (r : Re) (cs : List Char) : Re :=
  if r.isZero then r
  else
    match cs with
    | [] => r
    | c1 :: c2 :: c3 :: c4 :: cs =>
      ders (Re.simp (Re.der (Re.simp (Re.der (Re.simp (Re.der (Re.simp (Re.der r c1)) c2)) c3)) c4)) cs
    | c :: cs => ders (Re.simp (Re.der r c)) cs
termination_by cs.length
decreasing_by
  all_goals simp_arith

/-- `Regex::is_match`, src/regex/mod.rs lines 431-434. -/
def isMatch (r : Re) (cs : List Char) : Bool :=
  (ders r cs).nullable

end Regex2

/-- Claim C4: the derivative satisfies the six defining equations: Empty and
Unit derive to Empty, a literal derives to Unit exactly on its own character,
Alt derives pointwise, Seq derives to `Alt(Seq(der a, b), der b)` when `a` is
nullable and to `Seq(der a, b)` otherwise, and Repeat derives to
`Seq(der a, Repeat a)`. -/
theorem c4_der_equations :
    (∀ c, Re.der .zero c = .zero) ∧
    (∀ c, Re.der .one c = .zero) ∧
    (∀ c d, Re.der (.char d) c = if c = d then .one else .zero) ∧
    (∀ a b c, Re.der (.alt a b) c = .alt (a.der c) (b.der c)) ∧
    (∀ a b c, Re.der (.seq a b) c =
      if a.nullable then .alt (.seq (a.der c) b) (b.der c) else .seq (a.der c) b) ∧
    (∀ a c, Re.der (.star a) c = .seq (a.der c) (.star a)) := by
  refine ⟨fun _ => rfl, fun _ => rfl, fun _ _ => rfl, fun _ _ _ => rfl, fun _ _ _ => rfl,
    fun _ _ => rfl⟩

/-- The builder tree `build_plan::Re`, src/regex/build_plan.rs lines 2-9: a
safe, independently owned intermediate tree (`Box` edges become owned
subtrees). -/
inductive BRe where
  | one : BRe
  | zero : BRe
  | char (c : Char) : BRe
  | alt (r1 r2 : BRe) : BRe
  | seq (r1 r2 : BRe) : BRe
  | star (r : BRe) : BRe
deriving DecidableEq, Repr

/-- The string-to-builder conversion `impl Into<Re> for &str`,
src/regex/build_plan.rs lines 45-59: the empty string becomes `One`;
otherwise the first character seeds the accumulator and each following
character `c` turns accumulator `r` into `Seq(r, Char(c))` (a left fold). -/
def BRe.ofStr : List Char → BRe
  | [] => .one
  | c :: cs => cs.foldl (fun r d => .seq r (.char d)) (.char c)

/-- Claim C8 counterexample: the conversion of "abc" is the left-folded
`Seq(Seq(Char a, Char b), Char c)`, which differs from the right-folded
`Seq(Char a, Seq(Char b, Char c))` asserted by the claim. -/
theorem c8_counterexample :
    BRe.ofStr ['a', 'b', 'c'] = .seq (.seq (.char 'a') (.char 'b')) (.char 'c') ∧
    BRe.ofStr ['a', 'b', 'c'] ≠ .seq (.char 'a') (.seq (.char 'b') (.char 'c')) := by
  exact ⟨rfl, by decide⟩

/-- Claim C8 (amended): the conversion desugars a string to a left-folded
sequence of per-character literals (each appended character `c` wraps the
previous result `r` as `Seq(r, Char c)`); a one-character string is that
character's literal and the empty string desugars to `Unit`. -/
theorem c8_amended :
    BRe.ofStr [] = .one ∧
    (∀ c, BRe.ofStr [c] = .char c) ∧
    (∀ cs c, cs ≠ [] → BRe.ofStr (cs ++ [c]) = .seq (BRe.ofStr cs) (.char c)) := by
  refine ⟨rfl, fun c => rfl, ?_⟩
  intro cs c hne
  match cs with
  | d :: ds => simp [BRe.ofStr, List.foldl_append]

/-- Witness for the amended claim C8 at a concrete input. -/
theorem c8_amended_witness :
    BRe.ofStr (['a'] ++ ['b']) = .seq (BRe.ofStr ['a']) (.char 'b') :=
  c8_amended.2.2 ['a'] 'b' (by decide)

/-- Test whether the root node is the `Alt` constructor, as the
`if let Re::Alt(..)` tests inside the renderer do. -/
def Re.isAlt : Re → Bool
  | .alt _ _ => true
  | _ => false

/-- Rust's debug form of a character: the character between single quotes
(the code formats node characters with the `{:?}` formatter; escaping of
special characters is not modelled). -/
def charDebug (c : Char) : String := "'" ++ String.singleton c ++ "'"

/-- The renderer helper `fmt_rec(r, unit)` of `impl fmt::Debug for Re`,
src/regex/mod.rs lines 63-108 (identical in src/regex.rs lines 86-131).
The boolean is the `unit` flag: when true, an `Alt` is rendered flattened
without parentheses and its children are rendered by the `{:?}` formatter,
which restarts `fmt_rec` with `unit = true`. -/
def fmtRec : Re → Bool → String
  | .zero, _ => "0"
  | .one, _ => "1"
  | .char c, _ => charDebug c
  | .seq r1 r2, _ => fmtRec r1 false ++ "." ++ fmtRec r2 false
  | .alt r1 r2, false =>
    "(" ++ fmtRec r1 r1.isAlt ++ "|" ++ fmtRec r2 r2.isAlt ++ ")"
  | .alt r1 r2, true => fmtRec r1 true ++ "|" ++ fmtRec r2 true
  | .star r1, _ =>
    match r1 with
    | .seq _ _ => "(" ++ fmtRec r1 true ++ ")*"
    | .star _ => "(" ++ fmtRec r1 true ++ ")*"
    | _ => fmtRec r1 true ++ "*"

/-- The entry point of the renderer: `fmt` calls `fmt_rec(self, true)`
(src/regex/mod.rs line 110). -/
def render (r : Re) : String := fmtRec r true

/-- Claim C9 counterexample: an `Alt` at top level is rendered without a
parenthesis pair, not as "(a|b)" as the claim states. -/
theorem c9_counterexample :
    render (.alt (.char 'a') (.char 'b')) = "'a'|'b'" ∧
    ("'a'|'b'" : String) ≠ "('a'|'b')" := by
  exact ⟨rfl, by decide⟩

/-- Claim C9 (amended): the renderer prints Empty as "0", Unit as "1",
Literal(c) in its literal form, Seq(a,b) as "a.b"; an Alt at top level is
rendered flattened without a parenthesis pair, an Alt in child position of a
Seq is parenthesized as "(a|b)", an Alt nested directly as a child of another
Alt is flattened without its own parenthesis pair, and Repeat(a) is "a*" when
a is Literal/Unit/Empty but "(a)*" when a is Seq or Repeat. -/
theorem c9_amended :
    render .zero = "0" ∧
    render .one = "1" ∧
    (∀ c, render (.char c) = charDebug c) ∧
    (∀ a b, render (.seq a b) = fmtRec a false ++ "." ++ fmtRec b false) ∧
    (∀ a b, render (.alt a b) = fmtRec a true ++ "|" ++ fmtRec b true) ∧
    (∀ b x y, render (.alt (.alt x y) b)
      = (fmtRec x true ++ "|" ++ fmtRec y true) ++ "|" ++ fmtRec b true) ∧
    (∀ a x y, fmtRec (.seq a (.alt x y)) false
      = fmtRec a false ++ "." ++
        ("(" ++ fmtRec x x.isAlt ++ "|" ++ fmtRec y y.isAlt ++ ")")) ∧
    (∀ b x y, fmtRec (.alt (.alt x y) b) false
      = "(" ++ (fmtRec x true ++ "|" ++ fmtRec y true) ++ "|" ++ fmtRec b b.isAlt ++ ")") ∧
    (∀ c, render (.star (.char c)) = charDebug c ++ "*") ∧
    render (.star .zero) = "0*" ∧
    render (.star .one) = "1*" ∧
    (∀ a b, render (.star (.seq a b)) = "(" ++ fmtRec (.seq a b) true ++ ")*") ∧
    (∀ a, render (.star (.star a)) = "(" ++ fmtRec (.star a) true ++ ")*") := by
  refine ⟨rfl, rfl, fun _ => rfl, fun _ _ => rfl, fun _ _ => rfl, fun _ _ _ => rfl,
    fun _ _ _ => rfl, fun _ _ _ => rfl, fun _ => rfl, rfl, rfl, fun _ _ => rfl, fun _ => rfl⟩

/-- The arena allocator `VecAlloc<T>`, src/vec_alloc.rs lines 88-92: a backing
buffer of fixed capacity plus an occupancy count.  The model keeps the list of
written slots (`cells`, whose length is the source's `len` field: `alloc` is
the only writer and it writes exactly at index `len`); the uninitialized tail
of the buffer holds no values and is represented only by `capacity`. -/
structure VecAlloc (α : Type) where
  capacity : Nat
  cells : List α
deriving Repr, DecidableEq

namespace VecAlloc

/-- `VecAlloc::alloc`, src/vec_alloc.rs lines 120-135: succeeds exactly when
`len < capacity`, writing the value at index `len` (returned here as the slot
index that the source's pointer designates) and incrementing `len`; otherwise
the value is passed back to the caller. -/
def alloc {α : Type} (a : VecAlloc α) (v : α) : Except α (VecAlloc α × Nat) :=
  if a.cells.length < a.capacity then
    .ok ({ a with cells := a.cells ++ [v] }, a.cells.length)
  else
    .error v

/-- `VecAlloc::resize`, src/vec_alloc.rs lines 145-149: replace the backing
buffer with a fresh one of twice the capacity and reset `len` to zero. -/
def resize {α : Type} (a : VecAlloc α) : VecAlloc α :=
  { capacity := a.capacity * 2, cells := [] }

end VecAlloc

/-- Claim C6 counterexample: resizing an arena of capacity 0 yields capacity
0 * 2 = 0, not the minimum capacity 1 the claim asserts, so the resulting
arena is not strictly larger. -/
theorem c6_counterexample :
    (VecAlloc.resize { capacity := 0, cells := ([] : List Nat) }).capacity = 0 ∧
    ¬ ({ capacity := 0, cells := ([] : List Nat) } : VecAlloc Nat).capacity <
      (VecAlloc.resize { capacity := 0, cells := ([] : List Nat) }).capacity := by
  exact ⟨rfl, by decide⟩

/-- Claim C6 (amended): every call to the arena's grow operation replaces the
backing array with a new one of exactly double the previous capacity (with no
minimum, so a capacity-0 arena stays at capacity 0) and resets occupancy to
zero, discarding all prior contents. -/
theorem c6_amended (α : Type) (a : VecAlloc α) :
    (a.resize).capacity = a.capacity * 2 ∧ (a.resize).cells = [] :=
  ⟨rfl, rfl⟩

/-- Claim C7: under the arena invariant `occupancy ≤ capacity`, `alloc` fails
exactly when occupancy equals capacity; on failure it hands the value back and
the arena state is untouched; on success it writes the value into the next
free slot (index = old occupancy), returns a reference to that slot, and
increments occupancy by exactly one. -/
theorem c7_alloc (α : Type) (a : VecAlloc α) (v : α)
    (h : a.cells.length ≤ a.capacity) :
    ((∃ w, a.alloc v = .error w) ↔ a.cells.length = a.capacity) ∧
    (a.cells.length = a.capacity → a.alloc v = .error v) ∧
    (a.cells.length < a.capacity →
      a.alloc v = .ok ({ a with cells := a.cells ++ [v] }, a.cells.length)) := by
  unfold VecAlloc.alloc
  by_cases hlt : a.cells.length < a.capacity
  · rw [if_pos hlt]
    refine ⟨⟨?_, ?_⟩, ?_, fun _ => rfl⟩
    · rintro ⟨w, hw⟩
      cases hw
    · intro he
      omega
    · intro he
      omega
  · have he : a.cells.length = a.capacity := by omega
    rw [if_neg hlt]
    exact ⟨⟨fun _ => he, fun _ => ⟨v, rfl⟩⟩, fun _ => rfl, fun hc => absurd hc hlt⟩

/-- Witness for claim C7 at a concrete arena with one free slot. -/
theorem c7_alloc_witness :
    ({ capacity := 2, cells := [5] } : VecAlloc Nat).alloc 7
      = .ok ({ capacity := 2, cells := [5, 7] }, 1) :=
  (c7_alloc Nat { capacity := 2, cells := [5] } 7 (by decide)).2.2 (by decide)

namespace Re

/-- Interpretation of the node type into Mathlib's regular expressions, used
to give the code's trees their standard language semantics. -/
def toRE : Re → RegularExpression Char
  | .zero => 0
  | .one => 1
  | .char c => RegularExpression.char c
  | .alt r1 r2 => toRE r1 + toRE r2
  | .seq r1 r2 => toRE r1 * toRE r2
  | .star r1 => RegularExpression.star (toRE r1)

theorem nullable_eq_matchEpsilon (r : Re) : r.nullable = (toRE r).matchEpsilon := by
  induction r <;> simp [nullable, toRE, RegularExpression.matchEpsilon, *]

theorem toRE_der (r : Re) (c : Char) : (r.der c).toRE = (toRE r).deriv c := by
  induction r with
  | zero => rfl
  | one => rfl
  | char d =>
    simp only [der, toRE]
    by_cases h : c = d
    · subst h
      simp [RegularExpression.deriv, toRE]
    · rw [if_neg h]
      simp [RegularExpression.deriv, if_neg (Ne.symm h), toRE]
  | alt r1 r2 ih1 ih2 => simp [der, toRE, RegularExpression.deriv, ih1, ih2]
  | seq r1 r2 ih1 ih2 =>
    simp only [der, toRE, RegularExpression.deriv, ← nullable_eq_matchEpsilon]
    by_cases h : r1.nullable <;> simp [h, toRE, ih1, ih2]
  | star r1 ih => simp [der, toRE, RegularExpression.deriv, ih]

theorem rmatch_congr {P Q : RegularExpression Char} (h : P.matches' = Q.matches')
    (s : List Char) : P.rmatch s = Q.rmatch s := by
  rw [Bool.eq_iff_iff, RegularExpression.rmatch_iff_matches',
    RegularExpression.rmatch_iff_matches', h]

theorem matches_simpAlt (x y : Re) :
    (simpAlt x y).toRE.matches' = (toRE x).matches' + (toRE y).matches' := by
  unfold simpAlt
  split
  · simp [toRE]
  · simp [toRE]
  · split
    · rename_i heq
      subst heq
      simp [toRE, Language.add_self]
    · simp [toRE]

theorem matches_simpSeq (x y : Re) :
    (simpSeq x y).toRE.matches' = (toRE x).matches' * (toRE y).matches' := by
  unfold simpSeq
  split
  · simp [toRE]
  · simp [toRE]
  · simp [toRE]
  · simp [toRE]
  · simp [toRE]

theorem matches_simp (r : Re) : (simp r).toRE.matches' = (toRE r).matches' := by
  induction r with
  | alt r1 r2 ih1 ih2 =>
    rw [Re.simp, matches_simpAlt, ih1, ih2]
    simp [toRE]
  | seq r1 r2 ih1 ih2 =>
    rw [Re.simp, matches_simpSeq, ih1, ih2]
    simp [toRE]
  | zero => rfl
  | one => rfl
  | char c => rfl
  | star r1 ih => rfl

theorem rmatch_simp (r : Re) (s : List Char) :
    (Re.simp r).toRE.rmatch s = (toRE r).rmatch s :=
  rmatch_congr (matches_simp r) s

theorem rmatch_step (r : Re) (c : Char) (s : List Char) :
    (Re.simp (Re.der r c)).toRE.rmatch s = (toRE r).rmatch (c :: s) := by
  rw [rmatch_simp, toRE_der]
  rfl

end Re

namespace Regex2

theorem ders_zero (cs : List Char) : ders .zero cs = .zero := by
  unfold ders
  simp [Re.isZero]

theorem ders_nil (r : Re) : ders r [] = r := by
  unfold ders
  split
  · rfl
  · rfl

theorem ders_cons (r : Re) (hz : r.isZero = false) (c : Char) (cs : List Char)
    (h : cs.length ≤ 2) :
    ders r (c :: cs) = ders (Re.simp (Re.der r c)) cs := by
  rcases cs with _ | ⟨a, _ | ⟨b, _ | ⟨x, xs⟩⟩⟩
  · conv_lhs => unfold ders
    simp [hz]
  · conv_lhs => unfold ders
    simp [hz]
  · conv_lhs => unfold ders
    simp [hz]
  · simp at h

theorem ders_cons4 (r : Re) (hz : r.isZero = false) (c1 c2 c3 c4 : Char)
    (cs : List Char) :
    ders r (c1 :: c2 :: c3 :: c4 :: cs) =
      ders (Re.simp (Re.der (Re.simp (Re.der (Re.simp (Re.der (Re.simp (Re.der r c1)) c2)) c3)) c4)) cs := by
  conv_lhs => unfold ders
  simp [hz]

theorem ders_rmatch : ∀ (n : Nat) (cs : List Char), cs.length ≤ n → ∀ r : Re,
    (ders r cs).nullable = (Re.toRE r).rmatch cs := by
  intro n
  induction n with
  | zero =>
    intro cs hle r
    have hnil : cs = [] := List.length_eq_zero.mp (Nat.le_zero.mp hle)
    subst hnil
    rw [ders_nil]
    exact Re.nullable_eq_matchEpsilon r
  | succ n ih =>
    intro cs hle r
    by_cases hz : r.isZero = true
    · have hr : r = .zero := Re.isZero_iff.mp hz
      subst hr
      rw [ders_zero]
      simp [Re.nullable, Re.toRE]
    · have hz' : r.isZero = false := by simpa using hz
      rcases cs with _ | ⟨c1, _ | ⟨c2, _ | ⟨c3, _ | ⟨c4, cs⟩⟩⟩⟩
      · rw [ders_nil]
        exact Re.nullable_eq_matchEpsilon r
      · rw [ders_cons r hz' c1 [] (by simp)]
        rw [ih [] (by simp) (Re.simp (Re.der r c1))]
        rw [Re.rmatch_step]
      · rw [ders_cons r hz' c1 [c2] (by simp)]
        rw [ih [c2] (by simp at hle ⊢; omega) (Re.simp (Re.der r c1))]
        rw [Re.rmatch_step]
      · rw [ders_cons r hz' c1 [c2, c3] (by simp)]
        rw [ih [c2, c3] (by simp at hle ⊢; omega) (Re.simp (Re.der r c1))]
        rw [Re.rmatch_step]
      · rw [ders_cons4 r hz' c1 c2 c3 c4 cs]
        rw [ih cs (by simp at hle; omega)]
        rw [Re.rmatch_step, Re.rmatch_step, Re.rmatch_step, Re.rmatch_step]

theorem isMatch_eq_rmatch (r : Re) (cs : List Char) :
    isMatch r cs = (Re.toRE r).rmatch cs := by
  unfold isMatch
  exact ders_rmatch cs.length cs le_rfl r

end Regex2

/-- Claim C1: the fundamental derivative law: for every regular expression
`r` over the six constructors, character `c` and string `s`, matching `r`
against `c ++ s` gives the same boolean as matching the derivative of `r` by
`c` against `s`. -/
theorem c1_derivative_law (r : Re) (c : Char) (s : List Char) :
    Regex2.isMatch r (c :: s) = Regex2.isMatch (Re.der r c) s := by
  rw [Regex2.isMatch_eq_rmatch, Regex2.isMatch_eq_rmatch, Re.toRE_der]
  rfl

/-- Claim C5: simplification preserves the matched language: for every
regular expression `r` and string `s`, matching the simplified tree gives the
same boolean as matching `r` itself. -/
theorem c5_simp_preserves_matching (r : Re) (s : List Char) :
    Regex2.isMatch (Re.simp r) s = Regex2.isMatch r s := by
  rw [Regex2.isMatch_eq_rmatch, Regex2.isMatch_eq_rmatch]
  exact Re.rmatch_simp r s

namespace Regex1

theorem ders_zero_eq (cs : List Char) : ders .zero cs = .zero := by
  unfold ders
  simp [Re.isZero]

theorem ders_nil_eq (r : Re) (hz : r.isZero = false) : ders r [] = r := by
  unfold ders
  simp [hz]

theorem ders_cons_eq (r : Re) (hz : r.isZero = false) (c : Char) (cs : List Char)
    (h : cs.length ≤ 2) :
    ders r (c :: cs) = ders (Re.simp (Re.der r c)) cs := by
  rcases cs with _ | ⟨a, _ | ⟨b, _ | ⟨x, xs⟩⟩⟩
  · conv_lhs => unfold ders
    simp [hz]
  · conv_lhs => unfold ders
    simp [hz]
  · conv_lhs => unfold ders
    simp [hz]
  · simp at h

theorem ders_cons4_eq (r : Re) (hz : r.isZero = false) (c1 c2 c3 c4 : Char)
    (cs : List Char) :
    ders r (c1 :: c2 :: c3 :: c4 :: cs) =
      ders (Re.simp (Re.der (Re.simp (Re.der (Re.simp (Re.der (Re.simp (Re.der r c1)) c2)) c3)) c4)) cs := by
  conv_lhs => unfold ders
  simp [hz]

end Regex1

/-- The two variants' folds agree tree-by-tree: supporting lemma recording
that the node-level algorithm of src/regex.rs and src/regex/mod.rs is the
same once allocation is abstracted away (their sources differ only in the
`Zero` short-circuit value, which is `Zero`-rooted either way). -/
theorem ders_agree : ∀ (n : Nat) (cs : List Char), cs.length ≤ n → ∀ r : Re,
    Regex1.ders r cs = Regex2.ders r cs := by
  intro n
  induction n with
  | zero =>
    intro cs hle r
    have hnil : cs = [] := List.length_eq_zero.mp (Nat.le_zero.mp hle)
    subst hnil
    by_cases hz : r.isZero = true
    · have hr := Re.isZero_iff.mp hz
      subst hr
      rw [Regex1.ders_zero_eq, Regex2.ders_zero]
    · have hz' : r.isZero = false := by simpa using hz
      rw [Regex1.ders_nil_eq r hz', Regex2.ders_nil]
  | succ n ih =>
    intro cs hle r
    by_cases hz : r.isZero = true
    · have hr := Re.isZero_iff.mp hz
      subst hr
      rw [Regex1.ders_zero_eq, Regex2.ders_zero]
    · have hz' : r.isZero = false := by simpa using hz
      rcases cs with _ | ⟨c1, _ | ⟨c2, _ | ⟨c3, _ | ⟨c4, cs⟩⟩⟩⟩
      · rw [Regex1.ders_nil_eq r hz', Regex2.ders_nil]
      · rw [Regex1.ders_cons_eq r hz' c1 [] (by simp),
          Regex2.ders_cons r hz' c1 [] (by simp)]
        exact ih [] (by simp) _
      · rw [Regex1.ders_cons_eq r hz' c1 [c2] (by simp),
          Regex2.ders_cons r hz' c1 [c2] (by simp)]
        exact ih [c2] (by simp at hle ⊢; omega) _
      · rw [Regex1.ders_cons_eq r hz' c1 [c2, c3] (by simp),
          Regex2.ders_cons r hz' c1 [c2, c3] (by simp)]
        exact ih [c2, c3] (by simp at hle ⊢; omega) _
      · rw [Regex1.ders_cons4_eq r hz' c1 c2 c3 c4 cs,
          Regex2.ders_cons4 r hz' c1 c2 c3 c4 cs]
        exact ih cs (by simp at hle ⊢; omega) _

/-- Supporting lemma: at tree level the two variants' matchers agree. -/
theorem isMatch_agree (r : Re) (cs : List Char) :
    Regex1.isMatch r cs = Regex2.isMatch r cs := by
  unfold Regex1.isMatch Regex2.isMatch
  rw [ders_agree cs.length cs le_rfl r]

/-!
Arena-level model.

A `NonNull<Re>` handed out by `VecAlloc::alloc` is modelled as a `Ref`: the
identity of the `VecAlloc` instance that issued it (`aid`), the number of
resizes that instance had undergone at issuance (`gen`), and the slot index.
Dereferencing is defined exactly when the designated arena instance still has
the same generation and the slot is occupied; in every situation the source
documents as undefined behaviour (dereferencing after a resize, or against a
different allocator) the model's read returns `none`.
-/

/-- A node reference: instance id, generation at issuance, slot index. -/
structure Ref where
  aid : Nat
  gen : Nat
  idx : Nat
deriving DecidableEq, Repr

/-- The arena-resident node type: `Re` as stored in a `VecAlloc<Re>`, with
composite variants holding references. -/
inductive ARe where
  | zero : ARe
  | one : ARe
  | char (c : Char) : ARe
  | alt (r1 r2 : Ref) : ARe
  | seq (r1 r2 : Ref) : ARe
  | star (r : Ref) : ARe
deriving DecidableEq, Repr

/-- The child references held by a node. -/
def ARe.children : ARe → List Ref
  | .alt r1 r2 => [r1, r2]
  | .seq r1 r2 => [r1, r2]
  | .star r1 => [r1]
  | _ => []

/-- A `VecAlloc<Re>` instrumented with its instance id and resize count, so
that reference validity is expressible.  `capacity`/`cells` are exactly the
`VecAlloc` model above. -/
structure Arena where
  aid : Nat
  gen : Nat
  capacity : Nat
  cells : List ARe
deriving DecidableEq, Repr

namespace Arena

/-- Dereference: defined only against the issuing instance and generation. -/
def get (a : Arena) (r : Ref) : Option ARe :=
  if r.aid = a.aid ∧ r.gen = a.gen then a.cells.get? r.idx else none

/-- `VecAlloc::alloc` (src/vec_alloc.rs lines 120-135) returning the issued
reference. -/
def alloc (a : Arena) (v : ARe) : Except ARe (Arena × Ref) :=
  if a.cells.length < a.capacity then
    .ok ({ a with cells := a.cells ++ [v] }, ⟨a.aid, a.gen, a.cells.length⟩)
  else
    .error v

/-- `VecAlloc::resize` (src/vec_alloc.rs lines 145-149): fresh backing buffer
of double capacity, occupancy reset; the generation bump records that all
previously issued references are now dangling. -/
def resize (a : Arena) : Arena :=
  { a with gen := a.gen + 1, capacity := a.capacity * 2, cells := [] }

end Arena

/-- Resolve a reference against a list of live arenas (the borrow chain a
regex value can legally read through), first match wins. -/
def getEnv : List Arena → Ref → Option ARe
  | [], _ => none
  | a :: env, r =>
    match a.get r with
    | some n => some n
    | none => getEnv env r

/-- Depth-bounded check that every reference reachable from `r` dereferences
successfully within the given arenas.  Exhausted fuel reports no violation,
so `∀ fuel, reachOK env fuel r = true` says the reachable region is fully
resolvable. -/
def reachOK (env : List Arena) : Nat → Ref → Bool
  | 0, _ => true
  | fuel + 1, r =>
    match getEnv env r with
    | none => false
    | some n => n.children.all (reachOK env fuel)

/-- `Re::nullable` read through references (src/regex/mod.rs lines 21-30),
with the same short-circuiting as Rust's `||`/`&&`; `none` when a read fails
or the fuel runs out. -/
def nullableR : Nat → List Arena → Ref → Option Bool
  | 0, _, _ => none
  | fuel + 1, env, r =>
    match getEnv env r with
    | none => none
    | some .zero => some false
    | some .one => some true
    | some (.char _) => some false
    | some (.alt r1 r2) =>
      match nullableR fuel env r1 with
      | some true => some true
      | some false => nullableR fuel env r2
      | none => none
    | some (.seq r1 r2) =>
      match nullableR fuel env r1 with
      | some false => some false
      | some true => nullableR fuel env r2
      | none => none
    | some (.star _) => some true

/-- Outcome of a fallible arena-building step: `none` models reading a
dangling reference (undefined behaviour in the source) or fuel exhaustion;
`some (.error ())` models destination-arena exhaustion (the `Err` the caller
retries on); `some (.ok ...)` is success. -/
def allocStep (D : Arena) (v : ARe) : Option (Except Unit (Arena × Ref)) :=
  match D.alloc v with
  | .ok x => some (.ok x)
  | .error _ => some (.error ())

/-- Sequencing of fallible steps: propagate breakdown and exhaustion,
continue on success. -/
def bindStep (x : Option (Except Unit (Arena × Ref)))
    (f : Arena → Ref → Option (Except Unit (Arena × Ref))) :
    Option (Except Unit (Arena × Ref)) :=
  match x with
  | none => none
  | some (.error e) => some (.error e)
  | some (.ok (D, r)) => f D r

/-- Lift a fallible boolean read (the `r1.as_ref().nullable()` call) into a
fallible building step. -/
def liftBool (x : Option Bool) (f : Bool → Option (Except Unit (Arena × Ref))) :
    Option (Except Unit (Arena × Ref)) :=
  match x with
  | none => none
  | some b => f b

/-- `Regex::der_rec`, src/regex/mod.rs lines 268-300, at arena level: reads
the source node through `env`, allocates every new composite into the
destination `D`, and propagates allocation failure as `Err` exactly as the
`?` operator does (its `tree` parameter is unused in the source and omitted).
The `Zero` arm returns the source reference itself; the `Seq` arm embeds the
source reference `r2` and the `Star` arm embeds the source reference `r` of
the `Star` node into freshly allocated destination nodes. -/
def derRec2 : Nat → List Arena → Arena → Ref → Char → Option (Except Unit (Arena × Ref))
  | 0, _, _, _, _ => none
  | fuel + 1, env, D, r, c =>
    match getEnv env r with
    | none => none
    | some .zero => some (.ok (D, r))
    | some .one => allocStep D .zero
    | some (.char d) => allocStep D (if c = d then .one else .zero)
    | some (.alt r1 r2) =>
      bindStep (derRec2 fuel env D r1 c) fun D d1 =>
        bindStep (derRec2 fuel env D r2 c) fun D d2 =>
          allocStep D (.alt d1 d2)
    | some (.seq r1 r2) =>
      liftBool (nullableR fuel env r1) fun nb =>
        if nb then
          bindStep (derRec2 fuel env D r1 c) fun D d1 =>
            bindStep (allocStep D (.seq d1 r2)) fun D t =>
              bindStep (derRec2 fuel env D r2 c) fun D d2 =>
                allocStep D (.alt t d2)
        else
          bindStep (derRec2 fuel env D r1 c) fun D d1 =>
            allocStep D (.seq d1 r2)
    | some (.star r1) =>
      bindStep (derRec2 fuel env D r1 c) fun D d1 =>
        allocStep D (.seq d1 r)

/-- The builder-to-Regex compilation `build_inner` inside
`impl From<&build_plan::Re> for Regex`, src/regex/mod.rs lines 120-165:
children are built before parents; `try_alloc` on exhaustion resizes the
destination in place and rebuilds from the original root, and whatever that
restart returns is handed back to the pending caller frame, which then
continues with the references it computed before the resize (this is the
behaviour of the source, faithfully reproduced).  Fuel bounds the call depth;
`none` is fuel exhaustion only, since every allocation failure is retried
internally. -/
def buildInner : Nat → Arena → BRe → BRe → Option (Arena × Ref)
  | 0, _, _, _ => none
  | fuel + 1, a, root, plan =>
    let tryAl : Arena → ARe → Option (Arena × Ref) := fun a v =>
      match a.alloc v with
      | .ok x => some x
      | .error _ => buildInner fuel a.resize root root
    match plan with
    | .one => tryAl a .one
    | .zero => tryAl a .zero
    | .char c => tryAl a (.char c)
    | .alt p1 p2 =>
      match buildInner fuel a root p1 with
      | none => none
      | some (a, r1) =>
        match buildInner fuel a root p2 with
        | none => none
        | some (a, r2) => tryAl a (.alt r1 r2)
    | .seq p1 p2 =>
      match buildInner fuel a root p1 with
      | none => none
      | some (a, r1) =>
        match buildInner fuel a root p2 with
        | none => none
        | some (a, r2) => tryAl a (.seq r1 r2)
    | .star p =>
      match buildInner fuel a root p with
      | none => none
      | some (a, r) => tryAl a (.star r)

/-- The full `From<&build_plan::Re>` conversion, src/regex/mod.rs lines
120-165: a fresh arena of `Regex::DEFAULT_CAPACITY = 32` (src/regex/mod.rs
line 172), then `build_inner(alloc, value, value)`. -/
def regexFromPlan (p : BRe) : Option (Arena × Ref) :=
  buildInner 400 { aid := 0, gen := 0, capacity := 32, cells := [] } p p

/-- Validity of a reference against one arena: issued by that instance, in
its current generation, designating an occupied slot. -/
def refValidIn (a : Arena) (r : Ref) : Prop :=
  r.aid = a.aid ∧ r.gen = a.gen ∧ r.idx < a.cells.length

instance (a : Arena) (r : Ref) : Decidable (refValidIn a r) := by
  unfold refValidIn
  exact inferInstance

/-- Validity against some arena of a borrow chain. -/
def refValidEnv (env : List Arena) (r : Ref) : Prop :=
  ∃ a ∈ env, refValidIn a r

instance (env : List Arena) (r : Ref) : Decidable (refValidEnv env r) := by
  unfold refValidEnv
  exact List.decidableBEx _ env

/-- Every reference stored in the destination arena is valid in the
destination itself or in the source chain. -/
def destScoped (env : List Arena) (D : Arena) : Prop :=
  ∀ n ∈ D.cells, ∀ r ∈ n.children, refValidEnv (D :: env) r

instance (env : List Arena) (D : Arena) : Decidable (destScoped env D) := by
  unfold destScoped
  exact List.decidableBAll _ _

/-- Every reference stored anywhere in the chain is valid within the chain. -/
def envClosed (env : List Arena) : Prop :=
  ∀ a ∈ env, ∀ n ∈ a.cells, ∀ r ∈ n.children, refValidEnv env r

instance (env : List Arena) : Decidable (envClosed env) := by
  unfold envClosed
  exact List.decidableBAll _ _

/-- The destination after some successful allocations: same instance and
generation, at least as many occupied slots. -/
def arenaExtendsFrom (D' D : Arena) : Prop :=
  D'.aid = D.aid ∧ D'.gen = D.gen ∧ D.cells.length ≤ D'.cells.length

theorem arenaExtendsFrom_refl (D : Arena) : arenaExtendsFrom D D :=
  ⟨rfl, rfl, le_rfl⟩

theorem arenaExtendsFrom_trans {D1 D2 D3 : Arena} (h : arenaExtendsFrom D3 D2)
    (g : arenaExtendsFrom D2 D1) : arenaExtendsFrom D3 D1 :=
  ⟨h.1.trans g.1, h.2.1.trans g.2.1, le_trans g.2.2 h.2.2⟩

theorem refValidIn_mono {D D' : Arena} {r : Ref} (h : refValidIn D r)
    (hx : arenaExtendsFrom D' D) : refValidIn D' r :=
  ⟨h.1.trans hx.1.symm, h.2.1.trans hx.2.1.symm, lt_of_lt_of_le h.2.2 hx.2.2⟩

theorem refValidEnv_tail {env : List Arena} {D : Arena} {r : Ref}
    (h : refValidEnv env r) : refValidEnv (D :: env) r := by
  obtain ⟨a, ha, hv⟩ := h
  exact ⟨a, List.mem_cons_of_mem _ ha, hv⟩

theorem refValidEnv_mono {env : List Arena} {D D' : Arena} {r : Ref}
    (h : refValidEnv (D :: env) r) (hx : arenaExtendsFrom D' D) :
    refValidEnv (D' :: env) r := by
  obtain ⟨a, ha, hv⟩ := h
  rcases List.mem_cons.mp ha with hD | henv
  · subst hD
    exact ⟨D', List.mem_cons_self _ _, refValidIn_mono hv hx⟩
  · exact ⟨a, List.mem_cons_of_mem _ henv, hv⟩

theorem alloc_ok {D D' : Arena} {v : ARe} {ref : Ref}
    (h : D.alloc v = .ok (D', ref)) :
    arenaExtendsFrom D' D ∧ D'.cells = D.cells ++ [v] ∧ refValidIn D' ref := by
  unfold Arena.alloc at h
  split at h
  · simp only [Except.ok.injEq, Prod.mk.injEq] at h
    obtain ⟨hD, href⟩ := h
    subst hD
    subst href
    refine ⟨⟨rfl, rfl, ?_⟩, rfl, rfl, rfl, ?_⟩ <;> simp
  · exact absurd h (by simp)

theorem get_of_refValidIn {a : Arena} {r : Ref} (h : refValidIn a r) :
    ∃ n, a.get r = some n := by
  obtain ⟨h1, h2, h3⟩ := h
  unfold Arena.get
  rw [if_pos ⟨h1, h2⟩]
  exact ⟨_, List.get?_eq_get h3⟩

theorem getEnv_mem {env : List Arena} {r : Ref} {n : ARe}
    (h : getEnv env r = some n) : ∃ a ∈ env, n ∈ a.cells := by
  induction env with
  | nil => simp [getEnv] at h
  | cons a env ih =>
    unfold getEnv at h
    cases hg : a.get r with
    | some m =>
      rw [hg] at h
      injection h with h
      subst h
      refine ⟨a, List.mem_cons_self _ _, ?_⟩
      unfold Arena.get at hg
      split at hg
      · exact List.get?_mem hg
      · exact absurd hg (by simp)
    | none =>
      rw [hg] at h
      obtain ⟨b, hb, hn⟩ := ih h
      exact ⟨b, List.mem_cons_of_mem _ hb, hn⟩

theorem getEnv_isSome {env : List Arena} {r : Ref} (h : refValidEnv env r) :
    ∃ n, getEnv env r = some n := by
  induction env with
  | nil => simp [refValidEnv] at h
  | cons a env ih =>
    unfold getEnv
    cases hg : a.get r with
    | some m => exact ⟨m, rfl⟩
    | none =>
      obtain ⟨b, hb, hv⟩ := h
      rcases List.mem_cons.mp hb with hD | henv
      · subst hD
        obtain ⟨n, hn⟩ := get_of_refValidIn hv
        rw [hn] at hg
        cases hg
      · exact ih ⟨b, henv, hv⟩

theorem reachOK_of_scoped (env : List Arena) (D : Arena)
    (hc : envClosed env) (hs : destScoped env D) :
    ∀ (fuel : Nat) (r : Ref), refValidEnv (D :: env) r →
      reachOK (D :: env) fuel r = true := by
  intro fuel
  induction fuel with
  | zero =>
    intro r _
    rfl
  | succ fuel ih =>
    intro r hr
    obtain ⟨n, hn⟩ := getEnv_isSome hr
    unfold reachOK
    rw [hn, List.all_eq_true]
    intro r' hr'
    apply ih
    obtain ⟨a, ha, hmem⟩ := getEnv_mem hn
    rcases List.mem_cons.mp ha with hD | henv
    · subst hD
      exact hs n hmem r' hr'
    · exact refValidEnv_tail (hc a henv n hmem r' hr')

theorem allocStep_ok {D D' : Arena} {v : ARe} {root : Ref}
    (h : allocStep D v = some (.ok (D', root))) : D.alloc v = .ok (D', root) := by
  unfold allocStep at h
  cases halloc : D.alloc v with
  | ok x =>
    rw [halloc] at h
    simp only [Option.some.injEq, Except.ok.injEq] at h
    rw [h]
  | error e =>
    rw [halloc] at h
    simp at h

theorem bindStep_ok {x : Option (Except Unit (Arena × Ref))}
    {f : Arena → Ref → Option (Except Unit (Arena × Ref))} {D' : Arena} {root : Ref}
    (h : bindStep x f = some (.ok (D', root))) :
    ∃ D1 r1, x = some (.ok (D1, r1)) ∧ f D1 r1 = some (.ok (D', root)) := by
  match x with
  | none => simp [bindStep] at h
  | some (.error e) => simp [bindStep] at h
  | some (.ok (D1, r1)) => exact ⟨D1, r1, rfl, h⟩

theorem liftBool_ok {x : Option Bool} {f : Bool → Option (Except Unit (Arena × Ref))}
    {D' : Arena} {root : Ref} (h : liftBool x f = some (.ok (D', root))) :
    ∃ b, x = some b ∧ f b = some (.ok (D', root)) := by
  match x with
  | none => simp [liftBool] at h
  | some b => exact ⟨b, rfl, h⟩

theorem destScoped_alloc {env : List Arena} {D D' : Arena} {v : ARe} {ref : Ref}
    (hs : destScoped env D) (h : D.alloc v = .ok (D', ref))
    (hv : ∀ r' ∈ v.children, refValidEnv (D' :: env) r') :
    destScoped env D' := by
  obtain ⟨hext, hcells, _⟩ := alloc_ok h
  intro m hm r' hr'
  rw [hcells] at hm
  rcases List.mem_append.mp hm with hold | hnew
  · exact refValidEnv_mono (hs m hold r' hr') hext
  · have hmv : m = v := by simpa using hnew
    subst hmv
    exact hv r' hr'

theorem derRec2_scoped : ∀ (fuel : Nat) (env : List Arena) (D : Arena) (r : Ref)
    (c : Char) (D' : Arena) (root : Ref),
    envClosed env → destScoped env D → refValidEnv env r →
    derRec2 fuel env D r c = some (.ok (D', root)) →
    arenaExtendsFrom D' D ∧ destScoped env D' ∧ refValidEnv (D' :: env) root := by
  intro fuel
  induction fuel with
  | zero =>
    intro env D r c D' root _ _ _ h
    simp [derRec2] at h
  | succ fuel ih =>
    intro env D r c D' root hc hs hr h
    unfold derRec2 at h
    cases hg : getEnv env r with
    | none =>
      rw [hg] at h
      simp at h
    | some n =>
      rw [hg] at h
      have hchild : ∀ r' ∈ n.children, refValidEnv env r' := by
        obtain ⟨a, ha, hmem⟩ := getEnv_mem hg
        exact fun r' hr' => hc a ha n hmem r' hr'
      cases n with
      | zero =>
        simp only [Option.some.injEq, Except.ok.injEq, Prod.mk.injEq] at h
        obtain ⟨hD, hroot⟩ := h
        subst hD
        subst hroot
        exact ⟨arenaExtendsFrom_refl D, hs, refValidEnv_tail hr⟩
      | one =>
        have halloc := allocStep_ok h
        obtain ⟨hext, _, hvalid⟩ := alloc_ok halloc
        refine ⟨hext, destScoped_alloc hs halloc ?_, D', List.mem_cons_self _ _, hvalid⟩
        intro r' hr'
        simp [ARe.children] at hr'
      | char d =>
        have halloc := allocStep_ok h
        obtain ⟨hext, _, hvalid⟩ := alloc_ok halloc
        refine ⟨hext, destScoped_alloc hs halloc ?_, D', List.mem_cons_self _ _, hvalid⟩
        intro r' hr'
        split at hr' <;> simp [ARe.children] at hr'
      | alt r1 r2 =>
        obtain ⟨D1, d1, h1, hrest⟩ := bindStep_ok h
        obtain ⟨D2, d2, h2, hend⟩ := bindStep_ok hrest
        obtain ⟨ext1, hs1, hv1⟩ :=
          ih env D r1 c D1 d1 hc hs (hchild r1 (by simp [ARe.children])) h1
        obtain ⟨ext2, hs2, hv2⟩ :=
          ih env D1 r2 c D2 d2 hc hs1 (hchild r2 (by simp [ARe.children])) h2
        have halloc := allocStep_ok hend
        obtain ⟨ext3, _, hvalid⟩ := alloc_ok halloc
        refine ⟨arenaExtendsFrom_trans ext3 (arenaExtendsFrom_trans ext2 ext1),
          destScoped_alloc hs2 halloc ?_, D', List.mem_cons_self _ _, hvalid⟩
        intro r' hr'
        simp only [ARe.children, List.mem_cons, List.not_mem_nil, or_false] at hr'
        rcases hr' with h1' | h2'
        · subst h1'
          exact refValidEnv_mono (refValidEnv_mono hv1 ext2) ext3
        · subst h2'
          exact refValidEnv_mono hv2 ext3
      | seq r1 r2 =>
        obtain ⟨b, hnul, h⟩ := liftBool_ok h
        cases b with
        | true =>
            obtain ⟨D1, d1, h1, hrest⟩ := bindStep_ok h
            obtain ⟨Dt, t, ht, hrest2⟩ := bindStep_ok hrest
            obtain ⟨D2, d2, h2, hend⟩ := bindStep_ok hrest2
            obtain ⟨ext1, hs1, hv1⟩ :=
              ih env D r1 c D1 d1 hc hs (hchild r1 (by simp [ARe.children])) h1
            have hallocT := allocStep_ok ht
            obtain ⟨extT, _, hvT⟩ := alloc_ok hallocT
            have hsT : destScoped env Dt := by
              refine destScoped_alloc hs1 hallocT ?_
              intro r' hr'
              simp only [ARe.children, List.mem_cons, List.not_mem_nil, or_false] at hr'
              rcases hr' with h1' | h2'
              · subst h1'
                exact refValidEnv_mono hv1 extT
              · rw [h2']
                exact refValidEnv_tail (hchild r2 (by simp [ARe.children]))
            obtain ⟨ext2, hs2, hv2⟩ :=
              ih env Dt r2 c D2 d2 hc hsT (hchild r2 (by simp [ARe.children])) h2
            have halloc := allocStep_ok hend
            obtain ⟨ext3, _, hvalid⟩ := alloc_ok halloc
            refine ⟨arenaExtendsFrom_trans ext3 (arenaExtendsFrom_trans ext2
              (arenaExtendsFrom_trans extT ext1)),
              destScoped_alloc hs2 halloc ?_, D', List.mem_cons_self _ _, hvalid⟩
            intro r' hr'
            simp only [ARe.children, List.mem_cons, List.not_mem_nil, or_false] at hr'
            rcases hr' with h1' | h2'
            · subst h1'
              exact refValidEnv_mono (refValidEnv_mono ⟨Dt, List.mem_cons_self _ _, hvT⟩ ext2) ext3
            · subst h2'
              exact refValidEnv_mono hv2 ext3
          | false =>
            obtain ⟨D1, d1, h1, hend⟩ := bindStep_ok h
            obtain ⟨ext1, hs1, hv1⟩ :=
              ih env D r1 c D1 d1 hc hs (hchild r1 (by simp [ARe.children])) h1
            have halloc := allocStep_ok hend
            obtain ⟨ext2, _, hvalid⟩ := alloc_ok halloc
            refine ⟨arenaExtendsFrom_trans ext2 ext1,
              destScoped_alloc hs1 halloc ?_, D', List.mem_cons_self _ _, hvalid⟩
            intro r' hr'
            simp only [ARe.children, List.mem_cons, List.not_mem_nil, or_false] at hr'
            rcases hr' with h1' | h2'
            · subst h1'
              exact refValidEnv_mono hv1 ext2
            · rw [h2']
              exact refValidEnv_tail (hchild r2 (by simp [ARe.children]))
      | star r1 =>
        obtain ⟨D1, d1, h1, hend⟩ := bindStep_ok h
        obtain ⟨ext1, hs1, hv1⟩ :=
          ih env D r1 c D1 d1 hc hs (hchild r1 (by simp [ARe.children])) h1
        have halloc := allocStep_ok hend
        obtain ⟨ext2, _, hvalid⟩ := alloc_ok halloc
        refine ⟨arenaExtendsFrom_trans ext2 ext1,
          destScoped_alloc hs1 halloc ?_, D', List.mem_cons_self _ _, hvalid⟩
        intro r' hr'
        simp only [ARe.children, List.mem_cons, List.not_mem_nil, or_false] at hr'
        rcases hr' with h1' | h2'
        · subst h1'
          exact refValidEnv_mono hv1 ext2
        · subst h2'
          exact refValidEnv_tail hr

/-- Claim C3 (amended): every node reference transitively reachable from the
root of the Regex produced by `der` was allocated either from that Regex's
own (fresh) arena or from an arena backing the source Regex: `der` allocates
its new composites into a fresh destination but carries unchanged source
sub-nodes by reference, so node storage is shared with the source rather
than freshly copied.  Formally: whenever the source chain is closed, the
destination is scoped, and the root being derived is valid in the source
chain, a successful `der_rec` returns a root whose whole reachable region
dereferences inside the destination-plus-source chain (at every depth). -/
theorem c3_amended (fuel : Nat) (env : List Arena) (D D' : Arena) (r root : Ref)
    (c : Char) (hc : envClosed env) (hs : destScoped env D) (hr : refValidEnv env r)
    (h : derRec2 fuel env D r c = some (.ok (D', root))) (k : Nat) :
    reachOK (D' :: env) k root = true := by
  obtain ⟨_, hs', hroot⟩ := derRec2_scoped fuel env D r c D' root hc hs hr h
  exact reachOK_of_scoped env D' hc hs' k root hroot

/-- Source arena for the concrete derivative run: holds Char('a') at slot 0
and Star(slot 0) at slot 1. -/
def c3S : Arena := { aid := 0, gen := 0, capacity := 2, cells := [.char 'a', .star ⟨0, 0, 0⟩] }

/-- Fresh destination arena with `Regex::DEFAULT_CAPACITY = 32`
(src/regex/mod.rs line 306). -/
def c3D : Arena := { aid := 1, gen := 0, capacity := 32, cells := [] }

/-- The source root: the Star node. -/
def c3Root : Ref := ⟨0, 0, 1⟩

/-- Claim C3 counterexample: deriving Star('a') by 'a' yields a Regex whose
tree is not resolvable within its own arena alone — the `Star` sub-node is
carried by reference into the source arena, so the derivative's arena shares
node storage with the source, contradicting the claim that every reachable
reference comes from the produced Regex's own arena and that no storage is
shared. -/
theorem c3_counterexample :
    (match derRec2 10 [c3S] c3D c3Root 'a' with
      | some (.ok (d, root)) => reachOK [d] 10 root
      | _ => true) = false := by decide

/-- The result of the concrete derivative run (destination arena and root). -/
def c3Res : Arena × Ref :=
  match derRec2 10 [c3S] c3D c3Root 'a' with
  | some (.ok x) => x
  | _ => (c3D, c3Root)

/-- Witness for the amended claim C3 on the concrete run: the same reachable
region does resolve once the source arena is included in the chain. -/
theorem c3_amended_witness : reachOK (c3Res.1 :: [c3S]) 10 c3Res.2 = true :=
  c3_amended 10 [c3S] c3D c3Res.1 c3Root c3Res.2 'a' (by decide) (by decide)
    (by decide) (by rfl) 10

/-- A right-nested builder plan of 33 'a' literals (65 nodes), which does not
fit in the initial capacity of 32, so compilation hits destination exhaustion
mid-construction. -/
def c2Plan : BRe :=
  (List.replicate 32 'a').foldr (fun c acc => BRe.seq (.char c) acc) (.char 'a')

/-- Claim C2: evidence of the code bug in `build_inner`'s retry.  Compiling
the 65-node plan (a) reports success with a destination arena in generation 2
(so allocation failed and the arena was regrown twice), and (b) returns a
root whose reachable region does not dereference within the final arena: the
restarted construction's result was handed back to the pending caller frames,
which kept references issued before the resizes, so the returned tree holds
dangling pre-resize references (nodes split across generations) instead of
one complete consistent tree. -/
theorem c2_retry_splits_generations :
    (regexFromPlan c2Plan).isSome = true ∧
    (match regexFromPlan c2Plan with
      | some (a, _) => a.gen
      | none => 0) = 2 ∧
    (match regexFromPlan c2Plan with
      | some (a, root) => reachOK [a] 70 root
      | none => true) = false :=
  ⟨by decide, by decide, by decide⟩

/-!
Full arena-level pipelines of the two variants' matching drivers, used to
settle the cross-variant refinement claim.  Intermediate regexes produced by
`der`/`simp` read through a borrow chain of live arenas (the `env` lists);
fresh arenas receive an instance id above every live one.
-/

/-- A fresh instance id, larger than that of every live arena. -/
def freshAid (env : List Arena) : Nat :=
  env.foldr (fun a m => Nat.max a.aid m) 0 + 1

/-- `Re::nullable` on a node held by value (the root of a src/regex.rs
`Regex`), children read through the chain. -/
def nullableN (fuel : Nat) (env : List Arena) : ARe → Option Bool
  | .zero => some false
  | .one => some true
  | .char _ => some false
  | .alt r1 r2 =>
    match nullableR fuel env r1 with
    | some true => some true
    | some false => nullableR fuel env r2
    | none => none
  | .seq r1 r2 =>
    match nullableR fuel env r1 with
    | some false => some false
    | some true => nullableR fuel env r2
    | none => none
  | .star _ => some true

/-- Reference equality with deep fallback: `Const::eq`
(src/regex/const_ptr.rs lines 34-38) as used by `Re::const_eq`
(src/regex/mod.rs lines 32-34) and by `equals` inside `PartialEq for Re`
(src/regex.rs lines 48-50): pointer equality short-circuits, otherwise the
two nodes are read and compared structurally, children again by
pointer-or-deep equality, with Rust's `&&` short-circuit. -/
def refEqDeep : Nat → List Arena → Ref → Ref → Option Bool
  | 0, _, _, _ => none
  | fuel + 1, env, a, b =>
    if a = b then some true
    else
      match getEnv env a, getEnv env b with
      | some n1, some n2 =>
        match n1, n2 with
        | .zero, .zero => some true
        | .one, .one => some true
        | .char c, .char d => some (decide (c = d))
        | .alt a1 a2, .alt b1 b2 =>
          match refEqDeep fuel env a1 b1 with
          | some true => refEqDeep fuel env a2 b2
          | some false => some false
          | none => none
        | .seq a1 a2, .seq b1 b2 =>
          match refEqDeep fuel env a1 b1 with
          | some true => refEqDeep fuel env a2 b2
          | some false => some false
          | none => none
        | .star a1, .star b1 => refEqDeep fuel env a1 b1
        | _, _ => some false
      | _, _ => none

/-- Structural node equality `Re::eq` (src/regex/mod.rs lines 36-50, same as
`PartialEq for Re` in src/regex.rs lines 46-62), children compared by
pointer-or-deep equality. -/
def nodeEqD (fuel : Nat) (env : List Arena) : ARe → ARe → Option Bool
  | .zero, .zero => some true
  | .one, .one => some true
  | .char c, .char d => some (decide (c = d))
  | .alt a1 a2, .alt b1 b2 =>
    match refEqDeep fuel env a1 b1 with
    | some true => refEqDeep fuel env a2 b2
    | some false => some false
    | none => none
  | .seq a1 a2, .seq b1 b2 =>
    match refEqDeep fuel env a1 b1 with
    | some true => refEqDeep fuel env a2 b2
    | some false => some false
    | none => none
  | .star a1, .star b1 => refEqDeep fuel env a1 b1
  | _, _ => some false

/-- `Regex::der_rec` of src/regex.rs (lines 218-251) together with its retry
helper `der_alloc` (lines 208-216), inlined as `tryAl`: on destination
exhaustion the arena is resized IN PLACE and the recursion restarts from
`treeRef` — the copy of the root that `der` pre-allocated into the
destination itself — whose read after the resize is a dangling dereference
(hence `none`); whatever a successful restart returns is handed back to the
pending caller frame. -/
def derRec1 : Nat → List Arena → Arena → Ref → Ref → Char → Option (Arena × Ref)
  | 0, _, _, _, _, _ => none
  | fuel + 1, env, D, treeRef, r, c =>
    let tryAl : Arena → ARe → Option (Arena × Ref) := fun D v =>
      match D.alloc v with
      | .ok x => some x
      | .error _ => derRec1 fuel env D.resize treeRef treeRef c
    match getEnv (D :: env) r with
    | none => none
    | some .zero => tryAl D .zero
    | some .one => tryAl D .zero
    | some (.char d) => tryAl D (if c = d then .one else .zero)
    | some (.alt r1 r2) =>
      match derRec1 fuel env D treeRef r1 c with
      | none => none
      | some (D, d1) =>
        match derRec1 fuel env D treeRef r2 c with
        | none => none
        | some (D, d2) => tryAl D (.alt d1 d2)
    | some (.seq r1 r2) =>
      match nullableR fuel (D :: env) r1 with
      | none => none
      | some true =>
        match derRec1 fuel env D treeRef r1 c with
        | none => none
        | some (D, d1) =>
          match tryAl D (.seq d1 r2) with
          | none => none
          | some (D, t) =>
            match derRec1 fuel env D treeRef r2 c with
            | none => none
            | some (D, d2) => tryAl D (.alt t d2)
      | some false =>
        match derRec1 fuel env D treeRef r1 c with
        | none => none
        | some (D, d1) => tryAl D (.seq d1 r2)
    | some (.star r1) =>
      match derRec1 fuel env D treeRef r1 c with
      | none => none
      | some (D, d1) =>
        match tryAl D (.star r1) with
        | none => none
        | some (D, s) => tryAl D (.seq d1 s)

/-- `Regex::der` of src/regex.rs (lines 253-266): fresh destination of
`DEFAULT_CAPACITY = 16` (line 144), pre-allocate a copy of the root into it
(`.unwrap()` — `none` on failure), run `der_rec`, then read the resulting
reference back into a root value. -/
def der1 (fuel : Nat) (env : List Arena) (rootNode : ARe) (c : Char) :
    Option (ARe × Arena) :=
  let D0 : Arena := { aid := freshAid env, gen := 0, capacity := 16, cells := [] }
  match D0.alloc rootNode with
  | .error _ => none
  | .ok (D, treeRef) =>
    match derRec1 fuel env D treeRef treeRef c with
    | none => none
    | some (D, res) =>
      match getEnv (D :: env) res with
      | none => none
      | some node => some (node, D)

/-- `Regex::simp_rec` of src/regex.rs (lines 278-344) with its retry helper
`simp_alloc` (lines 268-276) inlined as `tryAl` (same in-place restart from
the pre-allocated root copy as `der_alloc`).  Child reuse is decided by
pointer equality `(r1, r2) == (r1s, r2s)` on `Const` values. -/
def simpRec1 : Nat → List Arena → Arena → Ref → Ref → Option (Arena × Ref)
  | 0, _, _, _, _ => none
  | fuel + 1, env, D, treeRef, r =>
    let tryAl : Arena → ARe → Option (Arena × Ref) := fun D v =>
      match D.alloc v with
      | .ok x => some x
      | .error _ => simpRec1 fuel env D.resize treeRef treeRef
    match getEnv (D :: env) r with
    | none => none
    | some (.alt r1s r2s) =>
      match simpRec1 fuel env D treeRef r1s with
      | none => none
      | some (D, r1) =>
        match simpRec1 fuel env D treeRef r2s with
        | none => none
        | some (D, r2) =>
          match getEnv (D :: env) r1, getEnv (D :: env) r2 with
          | some n1, some n2 =>
            match n1, n2 with
            | .zero, _ => some (D, r2)
            | _, .zero => some (D, r1)
            | _, _ =>
              match nodeEqD fuel (D :: env) n1 n2 with
              | none => none
              | some true => some (D, r1)
              | some false =>
                if r1 = r1s ∧ r2 = r2s then some (D, r)
                else tryAl D (.alt r1 r2)
          | _, _ => none
    | some (.seq r1s r2s) =>
      match simpRec1 fuel env D treeRef r1s with
      | none => none
      | some (D, r1) =>
        match simpRec1 fuel env D treeRef r2s with
        | none => none
        | some (D, r2) =>
          match getEnv (D :: env) r1, getEnv (D :: env) r2 with
          | some n1, some n2 =>
            match n1, n2 with
            | .zero, _ => some (D, r1)
            | _, .zero => some (D, r2)
            | .one, _ => some (D, r2)
            | _, .one => some (D, r1)
            | _, _ =>
              if r1 = r1s ∧ r2 = r2s then some (D, r)
              else tryAl D (.seq r1 r2)
          | _, _ => none
    | some _ => some (D, r)

/-- `Regex::simp` of src/regex.rs (lines 346-356): fresh capacity-16
destination, pre-allocate the root copy (`.unwrap()`), run `simp_rec`, read
the result back into a root value. -/
def simp1 (fuel : Nat) (env : List Arena) (rootNode : ARe) : Option (ARe × Arena) :=
  let D0 : Arena := { aid := freshAid env, gen := 0, capacity := 16, cells := [] }
  match D0.alloc rootNode with
  | .error _ => none
  | .ok (D, treeRef) =>
    match simpRec1 fuel env D treeRef treeRef with
    | none => none
    | some (D, res) =>
      match getEnv (D :: env) res with
      | none => none
      | some node => some (node, D)

/-- `Regex::rebuild_from` of src/regex.rs (lines 174-195): deep-copy a node
value into the (new regex's own) destination arena, children read by value
first; the allocation is `.unwrap()`ed, so exhaustion is a panic (`none`),
not a retry. -/
def rebuildFrom : Nat → List Arena → Arena → ARe → Option (Arena × Ref)
  | 0, _, _, _ => none
  | fuel + 1, env, D, node =>
    match node with
    | .zero =>
      match D.alloc .zero with
      | .ok x => some x
      | .error _ => none
    | .one =>
      match D.alloc .one with
      | .ok x => some x
      | .error _ => none
    | .char c =>
      match D.alloc (.char c) with
      | .ok x => some x
      | .error _ => none
    | .alt r1 r2 =>
      match getEnv env r1 with
      | none => none
      | some n1 =>
        match rebuildFrom fuel env D n1 with
        | none => none
        | some (D, p1) =>
          match getEnv env r2 with
          | none => none
          | some n2 =>
            match rebuildFrom fuel env D n2 with
            | none => none
            | some (D, p2) =>
              match D.alloc (.alt p1 p2) with
              | .ok x => some x
              | .error _ => none
    | .seq r1 r2 =>
      match getEnv env r1 with
      | none => none
      | some n1 =>
        match rebuildFrom fuel env D n1 with
        | none => none
        | some (D, p1) =>
          match getEnv env r2 with
          | none => none
          | some n2 =>
            match rebuildFrom fuel env D n2 with
            | none => none
            | some (D, p2) =>
              match D.alloc (.seq p1 p2) with
              | .ok x => some x
              | .error _ => none
    | .star r1 =>
      match getEnv env r1 with
      | none => none
      | some n1 =>
        match rebuildFrom fuel env D n1 with
        | none => none
        | some (D, p1) =>
          match D.alloc (.star p1) with
          | .ok x => some x
          | .error _ => none

/-- `Regex::to_owned` of src/regex.rs (lines 197-206): a fresh arena with the
SOURCE's capacity, `rebuild_from(self.tree)`, then read the returned
reference into the new root value. -/
def toOwned (fuel : Nat) (env : List Arena) (rootNode : ARe) (srcCapacity : Nat) :
    Option (ARe × Arena) :=
  let D0 : Arena := { aid := freshAid env, gen := 0, capacity := srcCapacity, cells := [] }
  match rebuildFrom fuel env D0 rootNode with
  | none => none
  | some (D, p) =>
    match getEnv [D] p with
    | none => none
    | some node => some (node, D)

/-- A src/regex.rs `Regex`: root node held by value plus the arena it owns. -/
structure Regex1A where
  root : ARe
  arena : Arena
deriving Repr

/-- One derive-then-simplify step of the src/regex.rs driver, returning the
new root value, the simplifier's arena, and the extended borrow chain. -/
def derSimp1 (fuel : Nat) (env : List Arena) (node : ARe) (c : Char) :
    Option (ARe × Arena × List Arena) :=
  match der1 fuel env node c with
  | none => none
  | some (dnode, Dd) =>
    match simp1 fuel (Dd :: env) dnode with
    | none => none
    | some (snode, Ds) => some (snode, Ds, Ds :: Dd :: env)

/-- `Regex::ders` of src/regex.rs (lines 358-378): `Regex::new()` (a `Zero`
root over a fresh capacity-16 arena, line 162-168) when the root is `Zero`;
otherwise derive+simplify per character — four at a time when at least four
remain — and `to_owned` the result before recursing. -/
def ders1A : Nat → Nat → Regex1A → List Char → Option Regex1A
  | 0, _, _, _ => none
  | fuelo + 1, fuel, r, cs =>
    match r.root with
    | .zero =>
      some { root := .zero,
             arena := { aid := freshAid [r.arena], gen := 0, capacity := 16, cells := [] } }
    | _ =>
      match cs with
      | [] => some r
      | c1 :: c2 :: c3 :: c4 :: cs =>
        match derSimp1 fuel [r.arena] r.root c1 with
        | none => none
        | some (n1, _, env1) =>
          match derSimp1 fuel env1 n1 c2 with
          | none => none
          | some (n2, _, env2) =>
            match derSimp1 fuel env2 n2 c3 with
            | none => none
            | some (n3, _, env3) =>
              match derSimp1 fuel env3 n3 c4 with
              | none => none
              | some (n4, A4, env4) =>
                match toOwned fuel env4 n4 A4.capacity with
                | none => none
                | some (onode, D) => ders1A fuelo fuel { root := onode, arena := D } cs
      | c :: cs =>
        match derSimp1 fuel [r.arena] r.root c with
        | none => none
        | some (n1, A1, env1) =>
          match toOwned fuel env1 n1 A1.capacity with
          | none => none
          | some (onode, D) => ders1A fuelo fuel { root := onode, arena := D } cs

/-- `Regex::is_match` of src/regex.rs (lines 380-384): `to_owned` the regex,
fold `ders` over the characters, then test nullability. -/
def isMatch1A (fuelo fuel : Nat) (r : Regex1A) (cs : List Char) : Option Bool :=
  match toOwned fuel [r.arena] r.root r.arena.capacity with
  | none => none
  | some (onode, D) =>
    match ders1A fuelo fuel { root := onode, arena := D } cs with
    | none => none
    | some res => nullableN fuel [res.arena] res.root

/-- `Regex::simp_rec` of src/regex/mod.rs (lines 322-390) at arena level:
like `der_rec`, failures propagate out as `Err` for the caller's loop to
retry.  Child reuse is decided by `Re::const_eq` — pointer equality or deep
structural equality — unlike the pointer-only test of src/regex.rs. -/
def simpRec2 : Nat → List Arena → Arena → Ref → Option (Except Unit (Arena × Ref))
  | 0, _, _, _ => none
  | fuel + 1, env, D, r =>
    match getEnv (D :: env) r with
    | none => none
    | some (.alt r1s r2s) =>
      bindStep (simpRec2 fuel env D r1s) fun D r1 =>
        bindStep (simpRec2 fuel env D r2s) fun D r2 =>
          match getEnv (D :: env) r1, getEnv (D :: env) r2 with
          | some n1, some n2 =>
            match n1, n2 with
            | .zero, _ => some (.ok (D, r2))
            | _, .zero => some (.ok (D, r1))
            | _, _ =>
              match nodeEqD fuel (D :: env) n1 n2 with
              | none => none
              | some true => some (.ok (D, r1))
              | some false =>
                match refEqDeep fuel (D :: env) r1 r1s with
                | none => none
                | some true =>
                  match refEqDeep fuel (D :: env) r2 r2s with
                  | none => none
                  | some true => some (.ok (D, r))
                  | some false => allocStep D (.alt r1 r2)
                | some false => allocStep D (.alt r1 r2)
          | _, _ => none
    | some (.seq r1s r2s) =>
      bindStep (simpRec2 fuel env D r1s) fun D r1 =>
        bindStep (simpRec2 fuel env D r2s) fun D r2 =>
          match getEnv (D :: env) r1, getEnv (D :: env) r2 with
          | some n1, some n2 =>
            match n1, n2 with
            | .zero, _ => some (.ok (D, r1))
            | _, .zero => some (.ok (D, r2))
            | .one, _ => some (.ok (D, r2))
            | _, .one => some (.ok (D, r1))
            | _, _ =>
              match refEqDeep fuel (D :: env) r1 r1s with
              | none => none
              | some true =>
                match refEqDeep fuel (D :: env) r2 r2s with
                | none => none
                | some true => some (.ok (D, r))
                | some false => allocStep D (.seq r1 r2)
              | some false => allocStep D (.seq r1 r2)
          | _, _ => none
    | some _ => some (.ok (D, r))

/-- The retry loop of `Regex::der` (src/regex/mod.rs lines 305-320): on `Err`
resize the destination and rerun `der_rec` from the source root. -/
def der2Loop : Nat → Nat → List Arena → Arena → Ref → Char → Option (Arena × Ref)
  | 0, _, _, _, _, _ => none
  | retries + 1, fuel, env, D, r, c =>
    match derRec2 fuel env D r c with
    | none => none
    | some (.ok x) => some x
    | some (.error _) => der2Loop retries fuel env D.resize r c

/-- `Regex::der` of src/regex/mod.rs: fresh destination of
`DEFAULT_CAPACITY = 32` (line 172), then the retry loop. -/
def der2 (retries fuel : Nat) (env : List Arena) (r : Ref) (c : Char) :
    Option (Arena × Ref) :=
  der2Loop retries fuel env
    { aid := freshAid env, gen := 0, capacity := 32, cells := [] } r c

/-- The retry loop of `Regex::simp` (src/regex/mod.rs lines 392-407). -/
def simp2Loop : Nat → Nat → List Arena → Arena → Ref → Option (Arena × Ref)
  | 0, _, _, _, _ => none
  | retries + 1, fuel, env, D, r =>
    match simpRec2 fuel env D r with
    | none => none
    | some (.ok x) => some x
    | some (.error _) => simp2Loop retries fuel env D.resize r

/-- `Regex::simp` of src/regex/mod.rs: fresh capacity-32 destination, then
the retry loop. -/
def simp2 (retries fuel : Nat) (env : List Arena) (r : Ref) : Option (Arena × Ref) :=
  simp2Loop retries fuel env
    { aid := freshAid env, gen := 0, capacity := 32, cells := [] } r

/-- `Regex::rebuild_with_rec` of src/regex/mod.rs (lines 220-243): deep copy
into the destination, propagating allocation failure as `Err`. -/
def rebuildWithRec : Nat → List Arena → Arena → Ref → Option (Except Unit (Arena × Ref))
  | 0, _, _, _ => none
  | fuel + 1, env, D, r =>
    match getEnv env r with
    | none => none
    | some .zero => allocStep D .zero
    | some .one => allocStep D .one
    | some (.char c) => allocStep D (.char c)
    | some (.alt r1 r2) =>
      bindStep (rebuildWithRec fuel env D r1) fun D p1 =>
        bindStep (rebuildWithRec fuel env D r2) fun D p2 =>
          allocStep D (.alt p1 p2)
    | some (.seq r1 r2) =>
      bindStep (rebuildWithRec fuel env D r1) fun D p1 =>
        bindStep (rebuildWithRec fuel env D r2) fun D p2 =>
          allocStep D (.seq p1 p2)
    | some (.star r1) =>
      bindStep (rebuildWithRec fuel env D r1) fun D p1 =>
        allocStep D (.star p1)

/-- `Regex::rebuild_with` of src/regex/mod.rs (lines 219-249): on `Err`
resize the destination and restart the whole copy. -/
def rebuildWith : Nat → Nat → List Arena → Arena → Ref → Option (Arena × Ref)
  | 0, _, _, _, _ => none
  | retries + 1, fuel, env, D, r =>
    match rebuildWithRec fuel env D r with
    | none => none
    | some (.ok x) => some x
    | some (.error _) => rebuildWith retries fuel env D.resize r

/-- `Regex::clone` of src/regex/mod.rs (lines 254-263): fresh arena with the
source's capacity, then `rebuild_with`. -/
def clone2 (retries fuel : Nat) (env : List Arena) (r : Ref) (srcCapacity : Nat) :
    Option (Arena × Ref) :=
  rebuildWith retries fuel env
    { aid := freshAid env, gen := 0, capacity := srcCapacity, cells := [] } r

/-- A src/regex/mod.rs `Regex`: root reference plus the arena it owns. -/
structure Regex2A where
  root : Ref
  arena : Arena
deriving Repr

/-- One derive-then-simplify step of the src/regex/mod.rs driver. -/
def derSimp2 (retries fuel : Nat) (env : List Arena) (r : Ref) (c : Char) :
    Option (Ref × Arena × List Arena) :=
  match der2 retries fuel env r c with
  | none => none
  | some (Dd, dref) =>
    match simp2 retries fuel (Dd :: env) dref with
    | none => none
    | some (Ds, sref) => some (sref, Ds, Ds :: Dd :: env)

/-- `Regex::ders` of src/regex/mod.rs (lines 409-429): return the regex
itself when its root dereferences to `Zero`; otherwise derive+simplify per
character — four at a time when at least four remain — and `clone` the
result before recursing. -/
def ders2A : Nat → Nat → Nat → Regex2A → List Char → Option Regex2A
  | 0, _, _, _, _ => none
  | fuelo + 1, retries, fuel, r, cs =>
    match r.arena.get r.root with
    | none => none
    | some .zero => some r
    | some _ =>
      match cs with
      | [] => some r
      | c1 :: c2 :: c3 :: c4 :: cs =>
        match derSimp2 retries fuel [r.arena] r.root c1 with
        | none => none
        | some (n1, _, env1) =>
          match derSimp2 retries fuel env1 n1 c2 with
          | none => none
          | some (n2, _, env2) =>
            match derSimp2 retries fuel env2 n2 c3 with
            | none => none
            | some (n3, _, env3) =>
              match derSimp2 retries fuel env3 n3 c4 with
              | none => none
              | some (n4, A4, env4) =>
                match clone2 retries fuel env4 n4 A4.capacity with
                | none => none
                | some (D, p) => ders2A fuelo retries fuel { root := p, arena := D } cs
      | c :: cs =>
        match derSimp2 retries fuel [r.arena] r.root c with
        | none => none
        | some (n1, A1, env1) =>
          match clone2 retries fuel env1 n1 A1.capacity with
          | none => none
          | some (D, p) => ders2A fuelo retries fuel { root := p, arena := D } cs

/-- `Regex::is_match` of src/regex/mod.rs (lines 431-434): `clone` the regex,
fold `ders`, then test nullability. -/
def isMatch2A (fuelo retries fuel : Nat) (r : Regex2A) (cs : List Char) : Option Bool :=
  match clone2 retries fuel [r.arena] r.root r.arena.capacity with
  | none => none
  | some (D, p) =>
    match ders2A fuelo retries fuel { root := p, arena := D } cs with
    | none => none
    | some res => nullableR fuel [res.arena] res.root

/-- Test fixture: hand-allocate a pure tree into an arena post-order,
children before parents, as main.rs does when it builds its test regex. -/
def loadRe : Re → Arena → Option (Arena × Ref)
  | .zero, a =>
    match a.alloc .zero with
    | .ok x => some x
    | .error _ => none
  | .one, a =>
    match a.alloc .one with
    | .ok x => some x
    | .error _ => none
  | .char c, a =>
    match a.alloc (.char c) with
    | .ok x => some x
    | .error _ => none
  | .alt r1 r2, a =>
    match loadRe r1 a with
    | none => none
    | some (a, p1) =>
      match loadRe r2 a with
      | none => none
      | some (a, p2) =>
        match a.alloc (.alt p1 p2) with
        | .ok x => some x
        | .error _ => none
  | .seq r1 r2, a =>
    match loadRe r1 a with
    | none => none
    | some (a, p1) =>
      match loadRe r2 a with
      | none => none
      | some (a, p2) =>
        match a.alloc (.seq p1 p2) with
        | .ok x => some x
        | .error _ => none
  | .star r1, a =>
    match loadRe r1 a with
    | none => none
    | some (a, p1) =>
      match a.alloc (.star p1) with
      | .ok x => some x
      | .error _ => none

/-- The 33-character literal chain 'a'·'a'·...·'a' as the source builds it (a
left-nested Seq chain, 65 nodes): its derivative needs more nodes than both
variants' initial destination capacities (16 and 32), so both hit destination
exhaustion while deriving. -/
def c10Tree : Re :=
  (List.replicate 32 'a').foldl (fun r c => Re.seq r (.char c)) (Re.char 'a')

/-- An empty arena big enough to hold the 65-node source tree. -/
def c10Arena0 : Arena := { aid := 0, gen := 0, capacity := 65, cells := [] }

/-- The source regex in src/regex.rs representation (root node by value). -/
def c10R1 : Regex1A :=
  match loadRe c10Tree c10Arena0 with
  | some (a, p) =>
    match a.get p with
    | some node => { root := node, arena := a }
    | none => { root := .zero, arena := a }
  | none => { root := .zero, arena := c10Arena0 }

/-- The source regex in src/regex/mod.rs representation (root by
reference). -/
def c10R2 : Regex2A :=
  match loadRe c10Tree c10Arena0 with
  | some (a, p) => { root := p, arena := a }
  | none => { root := ⟨0, 0, 0⟩, arena := c10Arena0 }

/-- Claim C10: evidence of the code bug in src/regex.rs's retry path.  For
the 33-character literal chain and the input "a", the two variants' matchers
do not return the same boolean: the src/regex.rs pipeline dereferences the
pre-resize root copy inside `der_alloc`'s restart — undefined behaviour per
`VecAlloc`'s own documentation ("Calling VecAlloc.resize on this allocator
will invalidate all allocations, dereferencing them is guaranteed UB") — so
it returns no boolean at all (`none` in the model), while the src/regex/mod.rs
pipeline recovers through its external retry loop and returns `false`.  The
third conjunct records that the claim is right about the intended algorithm:
at tree level the two variants compute the same boolean on this input. -/
theorem c10_variants_disagree :
    isMatch1A 5 300 c10R1 ['a'] = none ∧
    isMatch2A 5 10 300 c10R2 ['a'] = some false ∧
    Regex1.isMatch c10Tree ['a'] = Regex2.isMatch c10Tree ['a'] :=
  ⟨by decide, by decide, isMatch_agree c10Tree ['a']⟩
